import Mathlib

/-!
Verification development for a minimal TFTP read client
(tftp_client.py: send_rrq, receive_data, main).

The client is embedded shallowly:
  * datagram bytes are lists of natural numbers (each byte below 256 on a
    real wire; the bound is carried as a hypothesis where it matters),
  * the blocking socket is replaced by an explicit list of network events
    (a datagram arriving from some endpoint, or a receive timeout),
  * the receive loop of receive_data becomes a step function on an explicit
    transfer state, iterated over the event list,
  * file-system effects (the local precondition checks of send_rrq and the
    output file opened for writing by receive_data) are modelled by a map
    from names to optional byte contents.
-/

namespace Tftp

/-- Bytes on the wire: natural numbers, below 256 on a real wire. -/
abbrev Bytes := List Nat

/-- A (host, port) pair, as used for both the target server address and the
source address reported by recvfrom. -/
structure Endpoint where
  host : String
  port : Nat
deriving DecidableEq, Repr

/-- Embedding of struct.pack with two big-endian unsigned 16-bit fields.
In the source every packed value is below 65536 (the opcode literals 1 and 4,
and a block number read off the wire), so the truncating modulo never acts. -/
def packHH (a b : Nat) : Bytes :=
  [a / 256 % 256, a % 256, b / 256 % 256, b % 256]

/-- Embedding of struct.unpack of two big-endian unsigned 16-bit fields from
data[:4]: fails (struct.error in Python) when fewer than 4 bytes are present,
otherwise reads the first four bytes. -/
def unpackHH (data : Bytes) : Option (Nat × Nat) :=
  match data with
  | b0 :: b1 :: b2 :: b3 :: _ => some (b0 * 256 + b1, b2 * 256 + b3)
  | _ => none

/-- The read-request packet of send_rrq:
struct.pack with opcode 1, the filename in UTF-8, then a NUL, the ASCII bytes
of the mode string octet, and a final NUL. -/
def rrq_packet (filename : String) : Bytes :=
  [0, 1] ++ (filename.toUTF8.toList.map (fun b => b.toNat))
    ++ [0] ++ [111, 99, 116, 101, 116] ++ [0]

/-- One event observed by the receive loop: either recvfrom returns a
datagram with its source address, or the 2-second socket timeout elapses. -/
inductive NetEvent where
  | datagram (data : Bytes) (addr : Endpoint)
  | timeout
deriving DecidableEq, Repr

/-- The loop-local mutable state of receive_data, together with the
observable effects accumulated so far (bytes written to the output file and
packets passed to sendto with their destinations). -/
structure TransferState where
  block_num : Nat
  retries : Nat
  ack_packet : Option Bytes
  fileData : Bytes
  sends : List (Bytes × Endpoint)
deriving DecidableEq, Repr

/-- The state at entry of the receive loop: block_num = 1, retries = 0,
ack_packet = None, nothing written, nothing sent. -/
def initState : TransferState :=
  { block_num := 1, retries := 0, ack_packet := none, fileData := [], sends := [] }

/-- How an iteration of the receive loop ends the loop (or fails to). -/
inductive ExitKind where
  /-- break after the unexpected-opcode log message. -/
  | unexpectedOpcode
  /-- break after the out-of-order-block log message. -/
  | outOfOrderBlock
  /-- break after the finished-receiving log message (payload under 512). -/
  | finished
  /-- break after the maximum-retries log message. -/
  | maxRetriesExceeded
  /-- struct.error raised by unpack on a datagram shorter than 4 bytes;
  the except clause catches only socket.timeout, so this propagates out of
  receive_data uncaught. -/
  | structError
deriving DecidableEq, Repr

/-- Result of one iteration of the receive loop body. -/
inductive StepOut where
  | next (s : TransferState)
  | exit (k : ExitKind) (s : TransferState)
deriving DecidableEq, Repr

/-- The constant max_retries = 3 of receive_data. -/
def max_retries : Nat := 3

/-- The 2-second receive timeout installed by main via settimeout(2). -/
def socket_timeout_seconds : Nat := 2

/-- One iteration of the while loop of receive_data, faithful to the source:
recvfrom(516) truncates the datagram to 516 bytes; unpack of data[:4] yields
opcode and block (or raises on short data); a non-3 opcode breaks, a block
mismatch breaks, otherwise data[4:] is written, an ack is packed and sent to
the address the datagram arrived from, block_num is incremented, retries is
reset, and a payload under 512 bytes breaks; on timeout, retries is
incremented, a count above max_retries breaks, and otherwise the last ack
packet (when one exists) is resent to server_address. -/
def receive_step (server_address : Endpoint) (s : TransferState) :
    NetEvent → StepOut
  | .datagram raw addr =>
    let data := raw.take 516
    match unpackHH data with
    | none => .exit .structError s
    | some (opcode, block) =>
      if opcode ≠ 3 then .exit .unexpectedOpcode s
      else if block ≠ s.block_num then .exit .outOfOrderBlock s
      else
        let payload := data.drop 4
        let ack := packHH 4 block
        let s1 : TransferState :=
          { block_num := s.block_num + 1
            retries := 0
            ack_packet := some ack
            fileData := s.fileData ++ payload
            sends := s.sends ++ [(ack, addr)] }
        if payload.length < 512 then .exit .finished s1 else .next s1
  | .timeout =>
    let r := s.retries + 1
    if r > max_retries then .exit .maxRetriesExceeded { s with retries := r }
    else
      match s.ack_packet with
      | some ack =>
          .next { s with retries := r, sends := s.sends ++ [(ack, server_address)] }
      | none => .next { s with retries := r }

/-- Result of running the receive loop over a finite event list: either the
loop ended (with how and in which state), or the supplied events were
exhausted while the loop was still awaiting the next one. -/
inductive RunResult where
  | terminated (k : ExitKind) (s : TransferState)
  | awaiting (s : TransferState)
deriving DecidableEq, Repr

/-- Iterate receive_step over the event list until the loop ends. -/
def receive_run (server_address : Endpoint) :
    List NetEvent → TransferState → RunResult
  | [], s => .awaiting s
  | ev :: evs, s =>
    match receive_step server_address s ev with
    | .next s1 => receive_run server_address evs s1
    | .exit k s1 => .terminated k s1

/-- receive_data: run the receive loop from the initial state. -/
def receive_data (server_address : Endpoint) (events : List NetEvent) : RunResult :=
  receive_run server_address events initState

/-- The value the Python function receive_data returns to its caller: it is
annotated -> None and contains no return statement, so every path (every
break, and normal fall-through) returns None, modelled as the unit value. -/
def receive_data_retval (_server_address : Endpoint) (_events : List NetEvent) : Unit :=
  ()

/-- The transfer state carried by a run result. -/
def stateOf : RunResult → TransferState
  | .terminated _ s => s
  | .awaiting s => s

/-- The packets passed to sendto during a run, with their destinations. -/
def sendsOf (r : RunResult) : List (Bytes × Endpoint) :=
  (stateOf r).sends

/-- The expected block number after one loop iteration. -/
def stepBlockNum : StepOut → Nat
  | .next s => s.block_num
  | .exit _ s => s.block_num

/-- Classification of a loop iteration as accepting a data segment: the
iteration wrote the payload and sent a fresh acknowledgment, continuing the
loop on a full payload or finishing on a short one. -/
def stepAccepts : StepOut → Bool
  | .next _ => true
  | .exit .finished _ => true
  | .exit _ _ => false

/-- The block number an acknowledgment packet acknowledges (its second
unsigned 16-bit field). -/
def ackBlock (pkt : Bytes) : Nat :=
  match unpackHH pkt with
  | some (_, b) => b
  | none => 0

/-- A local file system: a map from file names to optional byte contents.
A name mapped to some contents is an existing regular file. -/
abbrev FileSys := String → Option Bytes

/-- Outcome of send_rrq, identifying which of its three paths ran: the
file-does-not-exist early return, the permission early return, or the send. -/
inductive RrqOutcome where
  | fileNotFound
  | permissionDenied
  | sent
deriving DecidableEq, Repr

/-- Effects of send_rrq: which path ran and the datagrams passed to sendto. -/
structure SendRrqResult where
  outcome : RrqOutcome
  sends : List (Bytes × Endpoint)
deriving DecidableEq, Repr

/-- send_rrq, faithful to the source: if os.path.isfile fails, print the
does-not-exist diagnostic and return without sending; else if os.access with
R_OK fails, print the permission diagnostic and return without sending; else
pack the read request and send it to server_address as a single datagram.
The readable map models os.access with R_OK. -/
def send_rrq (fs : FileSys) (readable : String → Bool)
    (server_address : Endpoint) (filename : String) : SendRrqResult :=
  if (fs filename).isNone then
    { outcome := .fileNotFound, sends := [] }
  else if ¬ readable filename then
    { outcome := .permissionDenied, sends := [] }
  else
    { outcome := .sent, sends := [(rrq_packet filename, server_address)] }

/-- Observable result of one run of main: the file system after the run
(receive_data opens args.file with mode wb, truncating it, and the with
block leaves exactly the written bytes in it on every exit path), all
datagrams passed to sendto in order (the read request, then the
acknowledgments of the receive loop), and how the receive loop ended. -/
structure MainResult where
  fs : FileSys
  sends : List (Bytes × Endpoint)
  run : Option RunResult

/-- main, faithful to the source for mode rx: the server address is
127.0.0.1 at the chosen port; send_rrq runs first, and receive_data is then
invoked unconditionally with the same args.file, whatever send_rrq did.
For any other mode only the unsupported-mode message is printed. -/
def main_run (fs0 : FileSys) (readable : String → Bool) (mode : String)
    (port : Nat) (file : String) (events : List NetEvent) : MainResult :=
  let server_address : Endpoint := { host := "127.0.0.1", port := port }
  if mode = "rx" then
    let rrq := send_rrq fs0 readable server_address file
    let res := receive_data server_address events
    { fs := fun n => if n = file then some (stateOf res).fileData else fs0 n
      sends := rrq.sends ++ (stateOf res).sends
      run := some res }
  else
    { fs := fs0, sends := [], run := none }

/-- A data segment as the server puts it on the wire: opcode 3, the block
number as a big-endian 16-bit field, then the payload. -/
def data_packet (block : Nat) (payload : Bytes) : Bytes :=
  packHH 3 block ++ payload

/-- The state after the receive loop accepts a segment with payload p
arriving from addr: payload written, fresh ack packed, sent to addr and
remembered, block_num incremented, retries reset. -/
def acceptState (s : TransferState) (p : Bytes) (addr : Endpoint) : TransferState :=
  { block_num := s.block_num + 1
    retries := 0
    ack_packet := some (packHH 4 s.block_num)
    fileData := s.fileData ++ p
    sends := s.sends ++ [(packHH 4 s.block_num, addr)] }

/-- The event list produced by a well-behaved server sending the given
payloads from addr, with consecutive block numbers from b. -/
def server_events (addr : Endpoint) : Nat → List Bytes → List NetEvent
  | _, [] => []
  | b, p :: ps => .datagram (data_packet b p) addr :: server_events addr (b + 1) ps

/-- The expected sequence of n acknowledgment sends for consecutive blocks
starting at b, all addressed to addr. -/
def ack_list (addr : Endpoint) : Nat → Nat → List (Bytes × Endpoint)
  | _, 0 => []
  | b, n + 1 => (packHH 4 b, addr) :: ack_list addr (b + 1) n

/-- The transfer state carried by one loop-iteration result. -/
def stepState : StepOut → TransferState
  | .next s => s
  | .exit _ s => s

/-- The loopback endpoint at the default port 6969 of the client. -/
def epLoop : Endpoint := { host := "127.0.0.1", port := 6969 }

/-- A second endpoint, differing from epLoop in its port, standing for a
server answering from a fresh source port. -/
def epOther : Endpoint := { host := "127.0.0.1", port := 7000 }

/-- A sample file system in which data.txt exists with three bytes. -/
def fsSample : FileSys := fun n => if n = "data.txt" then some [1, 2, 3] else none

/-- The empty file system: no file exists. -/
def fsNone : FileSys := fun _ => none

/-- A readability map under which every file passes the access check. -/
def readableAll : String → Bool := fun _ => true

/-- The failure kinds of the transfer engine as the spec names them. -/
inductive TransferError where
  | unexpectedOpcode
  | outOfOrderBlock
  | maxRetriesExceeded
deriving DecidableEq, Repr

/-- Follows the words of the spec contract for run_transfer, which is said
to return the total bytes written on TERMINATED_OK and the specific failure
kind on TERMINATED_ERROR: the outcome a caller would have to receive for
each way the receive loop can end. Stated for comparison with
receive_data_retval, the value the source function actually returns. -/
def run_transfer_result_spec (server_address : Endpoint) (events : List NetEvent) :
    Option (Nat ⊕ TransferError) :=
  match receive_data server_address events with
  | .terminated .finished s => some (.inl s.fileData.length)
  | .terminated .unexpectedOpcode _ => some (.inr .unexpectedOpcode)
  | .terminated .outOfOrderBlock _ => some (.inr .outOfOrderBlock)
  | .terminated .maxRetriesExceeded _ => some (.inr .maxRetriesExceeded)
  | .terminated .structError _ => none
  | .awaiting _ => none

/-- The state after the loop accepts the segment raw with block field blk
arriving from addr, written over the raw datagram. -/
def acceptRaw (s : TransferState) (raw : Bytes) (blk : Nat) (addr : Endpoint) :
    TransferState :=
  { block_num := s.block_num + 1
    retries := 0
    ack_packet := some (packHH 4 blk)
    fileData := s.fileData ++ ((raw.take 516).drop 4)
    sends := s.sends ++ [(packHH 4 blk, addr)] }

lemma length_packHH (a b : Nat) : (packHH a b).length = 4 := rfl

lemma unpack_packHH (a b : Nat) (rest : Bytes) (ha : a < 65536) (hb : b < 65536) :
    unpackHH (packHH a b ++ rest) = some (a, b) := by
  simp only [packHH, List.cons_append, List.nil_append, unpackHH, Option.some.injEq,
    Prod.mk.injEq]
  omega

lemma take516_data (bn : Nat) (p : Bytes) (hp : p.length ≤ 512) :
    (packHH 3 bn ++ p).take 516 = packHH 3 bn ++ p := by
  apply List.take_of_length_le
  simp only [List.length_append, length_packHH]
  omega

lemma drop4_data (bn : Nat) (p : Bytes) : (packHH 3 bn ++ p).drop 4 = p := by
  have h4 : (4 : Nat) = (packHH 3 bn).length := rfl
  rw [h4, List.drop_left]

/-- A datagram carrying the expected block number and a payload of at most
512 bytes is accepted: payload appended, ack sent to the arrival address,
and the loop continues exactly when the payload is full. -/
lemma receive_step_data_accept (sa addr : Endpoint) (s : TransferState) (p : Bytes)
    (hb : s.block_num < 65536) (hp : p.length ≤ 512) :
    receive_step sa s (.datagram (data_packet s.block_num p) addr) =
      if p.length < 512 then .exit .finished (acceptState s p addr)
      else .next (acceptState s p addr) := by
  simp only [receive_step, data_packet]
  rw [take516_data s.block_num p hp,
    unpack_packHH 3 s.block_num p (by norm_num) hb]
  simp only [ne_eq, reduceCtorEq, acceptState]
  rw [drop4_data]
  simp

lemma receive_step_timeout_ack (sa : Endpoint) (s : TransferState) (a : Bytes)
    (hr : s.retries + 1 ≤ max_retries) (ha : s.ack_packet = some a) :
    receive_step sa s .timeout =
      .next { s with retries := s.retries + 1, sends := s.sends ++ [(a, sa)] } := by
  simp only [receive_step, ha]
  rw [if_neg (by omega)]

lemma receive_step_timeout_noack (sa : Endpoint) (s : TransferState)
    (hr : s.retries + 1 ≤ max_retries) (ha : s.ack_packet = none) :
    receive_step sa s .timeout = .next { s with retries := s.retries + 1 } := by
  simp only [receive_step, ha]
  rw [if_neg (by omega)]

lemma receive_step_timeout_exceed (sa : Endpoint) (s : TransferState)
    (hr : s.retries + 1 > max_retries) :
    receive_step sa s .timeout = .exit .maxRetriesExceeded { s with retries := s.retries + 1 } := by
  simp only [receive_step]
  rw [if_pos hr]

lemma receive_run_cons_next (sa : Endpoint) (s : TransferState) (ev : NetEvent)
    (evs : List NetEvent) (s1 : TransferState) (h : receive_step sa s ev = .next s1) :
    receive_run sa (ev :: evs) s = receive_run sa evs s1 := by
  simp [receive_run, h]

lemma receive_run_cons_exit (sa : Endpoint) (s : TransferState) (ev : NetEvent)
    (evs : List NetEvent) (k : ExitKind) (s1 : TransferState)
    (h : receive_step sa s ev = .exit k s1) :
    receive_run sa (ev :: evs) s = .terminated k s1 := by
  simp [receive_run, h]

/-- Running the loop against a well-behaved server: full payloads for every
block but the last, a short final payload, block numbers consecutive from
the current expected block and all encodable in 16 bits. The loop finishes,
writes the concatenation of the payloads, and acknowledges every block to
the arrival address. -/
lemma receive_run_wellbehaved (sa addr : Endpoint) (full : List Bytes) (last : Bytes)
    (s : TransferState)
    (hfull : ∀ p ∈ full, p.length = 512) (hlast : last.length < 512)
    (hb : s.block_num + full.length < 65536) :
    receive_run sa (server_events addr s.block_num (full ++ [last])) s =
      .terminated .finished
        { block_num := s.block_num + full.length + 1
          retries := 0
          ack_packet := some (packHH 4 (s.block_num + full.length))
          fileData := s.fileData ++ (full ++ [last]).flatten
          sends := s.sends ++ ack_list addr s.block_num (full.length + 1) } := by
  induction full generalizing s with
  | nil =>
    simp only [List.nil_append, server_events, receive_run]
    rw [receive_step_data_accept sa addr s last (by simpa using hb) (le_of_lt hlast),
      if_pos hlast]
    simp [acceptState, ack_list]
  | cons p rest ih =>
    have hp : p.length = 512 := hfull p (List.mem_cons_self p rest)
    simp only [List.cons_append, server_events]
    rw [receive_run_cons_next sa s _ _ (acceptState s p addr)
      (by rw [receive_step_data_accept sa addr s p (by simp only [List.length_cons] at hb; omega)
                (le_of_eq hp)]
          rw [if_neg (by omega)])]
    have hrec := ih (acceptState s p addr)
      (fun q hq => hfull q (List.mem_cons_of_mem p hq))
      (by show (acceptState s p addr).block_num + rest.length < 65536
          simp only [acceptState]
          simp only [List.length_cons] at hb
          omega)
    rw [show s.block_num + 1 = (acceptState s p addr).block_num from rfl]
    simp only [List.append_eq]
    rw [hrec]
    simp only [acceptState, RunResult.terminated.injEq, TransferState.mk.injEq,
      List.length_cons, true_and]
    refine ⟨by omega, ?_, ?_, ?_⟩
    · rw [show s.block_num + 1 + rest.length = s.block_num + (rest.length + 1) from by omega]
    · simp [List.flatten_cons, List.append_assoc]
    · rw [show ack_list addr s.block_num (rest.length + 1 + 1)
          = (packHH 4 s.block_num, addr) :: ack_list addr (s.block_num + 1) (rest.length + 1)
          from rfl]
      simp [List.append_assoc]

lemma ackBlock_packHH (b : Nat) (hb : b < 65536) : ackBlock (packHH 4 b) = b := by
  unfold ackBlock
  rw [← List.append_nil (packHH 4 b), unpack_packHH 4 b [] (by norm_num) hb]

/-- The blocks acknowledged by ack_list addr b n are b, b + 1, ..., b + n - 1
in that order, provided they all fit in 16 bits. -/
lemma ack_list_map_blocks (addr : Endpoint) (b n : Nat) (h : b + n ≤ 65536) :
    (ack_list addr b n).map (fun pr => ackBlock pr.1)
      = (List.range n).map (fun i => b + i) := by
  induction n generalizing b with
  | zero => simp [ack_list]
  | succ n ih =>
    rw [show ack_list addr b (n + 1)
        = (packHH 4 b, addr) :: ack_list addr (b + 1) n from rfl]
    simp only [List.map_cons]
    rw [ackBlock_packHH b (by omega), ih (b + 1) (by omega), List.range_succ_eq_map]
    simp only [List.map_cons, List.map_map, Nat.add_zero, Function.comp_def]
    congr 1
    exact List.map_congr_left (fun a _ => by omega)

lemma pairwise_lt_map_add (b n : Nat) :
    List.Pairwise (· < ·) ((List.range n).map (fun i => b + i)) :=
  List.Pairwise.map _ (fun x y hxy => by omega) (List.pairwise_lt_range n)

/-- While no acknowledgment has ever been sent, timeouts send nothing and
write nothing, whatever their number. -/
lemma receive_run_silent (sa : Endpoint) (n : Nat) (s : TransferState)
    (ha : s.ack_packet = none) :
    (stateOf (receive_run sa (List.replicate n .timeout) s)).sends = s.sends ∧
    (stateOf (receive_run sa (List.replicate n .timeout) s)).fileData = s.fileData := by
  induction n generalizing s with
  | zero => simp [receive_run, List.replicate, stateOf]
  | succ n ih =>
    rw [List.replicate_succ]
    by_cases hr : s.retries + 1 > max_retries
    · rw [receive_run_cons_exit _ _ _ _ _ _ (receive_step_timeout_exceed sa s hr)]
      simp [stateOf]
    · rw [receive_run_cons_next _ _ _ _ _
        (receive_step_timeout_noack sa s (by omega) ha)]
      exact ih { s with retries := s.retries + 1 } ha

lemma receive_step_datagram_short (sa addr : Endpoint) (s : TransferState) (raw : Bytes)
    (hpr : unpackHH (raw.take 516) = none) :
    receive_step sa s (.datagram raw addr) = .exit .structError s := by
  simp only [receive_step]
  rw [hpr]

lemma receive_step_datagram_parse (sa addr : Endpoint) (s : TransferState) (raw : Bytes)
    (op blk : Nat) (hpr : unpackHH (raw.take 516) = some (op, blk)) :
    receive_step sa s (.datagram raw addr) =
      if op ≠ 3 then .exit .unexpectedOpcode s
      else if blk ≠ s.block_num then .exit .outOfOrderBlock s
      else if ((raw.take 516).drop 4).length < 512 then
        .exit .finished (acceptRaw s raw blk addr)
      else .next (acceptRaw s raw blk addr) := by
  simp only [receive_step]
  rw [hpr]
  rfl

lemma unpackHH_eq_none (data : Bytes) (h : data.length < 4) : unpackHH data = none := by
  rcases data with _ | ⟨b0, _ | ⟨b1, _ | ⟨b2, _ | ⟨b3, rest⟩⟩⟩⟩
  · rfl
  · rfl
  · rfl
  · rfl
  · simp only [List.length_cons] at h
    omega

lemma unpackHH_isSome (data : Bytes) (h : 4 ≤ data.length) :
    ∃ op blk, unpackHH data = some (op, blk) := by
  rcases data with _ | ⟨b0, _ | ⟨b1, _ | ⟨b2, _ | ⟨b3, rest⟩⟩⟩⟩
  · simp at h
  · simp at h
  · simp only [List.length_cons, List.length_nil] at h
    omega
  · simp only [List.length_cons, List.length_nil] at h
    omega
  · exact ⟨_, _, rfl⟩

lemma unpackHH_bounds (data : Bytes) (op blk : Nat) (hbytes : ∀ b ∈ data, b < 256)
    (h : unpackHH data = some (op, blk)) : op ≤ 65535 ∧ blk ≤ 65535 := by
  rcases data with _ | ⟨b0, _ | ⟨b1, _ | ⟨b2, _ | ⟨b3, rest⟩⟩⟩⟩ <;>
    simp only [unpackHH, Option.some.injEq, Prod.mk.injEq, reduceCtorEq] at h
  obtain ⟨h1, h2⟩ := h
  have hb0 := hbytes b0 (by simp)
  have hb1 := hbytes b1 (by simp)
  have hb2 := hbytes b2 (by simp)
  have hb3 := hbytes b3 (by simp)
  omega

/-- Claim C2: a received datagram whose block number differs from the
expected next block number makes the loop break with the out-of-order exit,
with the state (written bytes, expected block, retry counter, last
acknowledgment) exactly as before the datagram, and any later events are
never consumed. -/
theorem C2_out_of_order_fatal (sa addr : Endpoint) (s : TransferState) (raw : Bytes)
    (opcode block : Nat)
    (hparse : unpackHH (raw.take 516) = some (opcode, block))
    (hop : opcode = 3) (hblk : block ≠ s.block_num) :
    receive_step sa s (.datagram raw addr) = .exit .outOfOrderBlock s
    ∧ ∀ rest : List NetEvent,
        receive_run sa (.datagram raw addr :: rest) s = .terminated .outOfOrderBlock s := by
  subst hop
  have hstep : receive_step sa s (.datagram raw addr) = .exit .outOfOrderBlock s := by
    simp only [receive_step]
    rw [hparse]
    simp [hblk]
  exact ⟨hstep, fun rest => receive_run_cons_exit sa s _ rest _ s hstep⟩

/-- Witness for C2 at a concrete input: expected block 1, received block 2. -/
theorem C2_out_of_order_fatal_witness :
    receive_step epLoop initState (.datagram [0, 3, 0, 2, 65] epOther)
        = .exit .outOfOrderBlock initState
    ∧ receive_run epLoop [.datagram [0, 3, 0, 2, 65] epOther] initState
        = .terminated .outOfOrderBlock initState := by
  have h := C2_out_of_order_fatal epLoop epOther initState [0, 3, 0, 2, 65] 3 2
    (by decide) rfl (by decide)
  exact ⟨h.1, h.2 []⟩

/-- Claim C6: a received datagram whose opcode is not 3 makes the loop break
with the unexpected-opcode exit, with the state (in particular the written
bytes) exactly as before the datagram, and any later events never consumed. -/
theorem C6_unexpected_opcode_fatal (sa addr : Endpoint) (s : TransferState) (raw : Bytes)
    (opcode block : Nat)
    (hparse : unpackHH (raw.take 516) = some (opcode, block)) (hop : opcode ≠ 3) :
    receive_step sa s (.datagram raw addr) = .exit .unexpectedOpcode s
    ∧ ∀ rest : List NetEvent,
        receive_run sa (.datagram raw addr :: rest) s = .terminated .unexpectedOpcode s := by
  have hstep : receive_step sa s (.datagram raw addr) = .exit .unexpectedOpcode s := by
    simp only [receive_step]
    rw [hparse]
    simp [hop]
  exact ⟨hstep, fun rest => receive_run_cons_exit sa s _ rest _ s hstep⟩

/-- Witness for C6 at a concrete input: an error packet with opcode 5. -/
theorem C6_unexpected_opcode_fatal_witness :
    receive_step epLoop initState (.datagram [0, 5, 0, 0] epOther)
        = .exit .unexpectedOpcode initState
    ∧ receive_run epLoop [.datagram [0, 5, 0, 0] epOther] initState
        = .terminated .unexpectedOpcode initState := by
  have h := C6_unexpected_opcode_fatal epLoop epOther initState [0, 5, 0, 0] 5 0
    (by decide) (by decide)
  exact ⟨h.1, h.2 []⟩

/-- Claim C9: a datagram shorter than 4 bytes makes the header parse fail
(struct.error, caught by no handler in receive_data), an exit distinct from
the three specified terminal outcomes; for a datagram of at least 4 bytes
the parse never fails this way. -/
theorem C9_short_datagram_uncaught (sa addr : Endpoint) (s : TransferState) (raw : Bytes) :
    (raw.length < 4 → receive_step sa s (.datagram raw addr) = .exit .structError s)
    ∧ (4 ≤ raw.length → ∀ s1 : TransferState,
        receive_step sa s (.datagram raw addr) ≠ .exit .structError s1) := by
  constructor
  · intro h
    have hnone : unpackHH (raw.take 516) = none := by
      apply unpackHH_eq_none
      simp only [List.length_take]
      omega
    simp only [receive_step]
    rw [hnone]
  · intro h s1
    have hsome : ∃ op blk, unpackHH (raw.take 516) = some (op, blk) := by
      apply unpackHH_isSome
      simp only [List.length_take]
      omega
    obtain ⟨op, blk, hsome⟩ := hsome
    rw [receive_step_datagram_parse sa addr s raw op blk hsome]
    split
    · simp
    · split
      · simp
      · split
        · simp
        · simp

/-- Witness for C9 at concrete inputs: a 2-byte datagram fails the parse, a
4-byte one does not. -/
theorem C9_short_datagram_uncaught_witness :
    receive_step epLoop initState (.datagram [0, 3] epOther) = .exit .structError initState
    ∧ receive_step epLoop initState (.datagram [0, 5, 0, 0] epOther)
        ≠ .exit .structError initState := by
  refine ⟨(C9_short_datagram_uncaught epLoop epOther initState [0, 3]).1 (by decide),
    (C9_short_datagram_uncaught epLoop epOther initState [0, 5, 0, 0]).2 (by decide) initState⟩

/-- Counterexample to claim C4 as stated: on an accepted segment the
expected block number is not incremented modulo 65536 — with expected block
65535 and the matching final wire block 65535 accepted, the next expected
block becomes 65536, not 0. -/
theorem C4_counterexample :
    ¬ (∀ (sa addr : Endpoint) (s : TransferState) (raw : Bytes),
        stepAccepts (receive_step sa s (.datagram raw addr)) = true →
        stepBlockNum (receive_step sa s (.datagram raw addr)) = (s.block_num + 1) % 65536) := by
  intro h
  exact absurd
    (h epLoop epLoop { initState with block_num := 65535 } [0, 3, 255, 255] (by decide))
    (by decide)

/-- Claim C4 amended: the expected block number starts at 1 and increments
by 1 without any modulo on each accepted segment; consequently, once it
exceeds 65535, no datagram of wire bytes (each below 256) can ever be
accepted again, since the 16-bit block field cannot equal it. -/
theorem C4_amended_no_wrap (sa addr : Endpoint) (s : TransferState) (raw : Bytes) :
    initState.block_num = 1
    ∧ (stepAccepts (receive_step sa s (.datagram raw addr)) = true →
        stepBlockNum (receive_step sa s (.datagram raw addr)) = s.block_num + 1)
    ∧ (65536 ≤ s.block_num → (∀ b ∈ raw, b < 256) →
        stepAccepts (receive_step sa s (.datagram raw addr)) = false) := by
  refine ⟨rfl, ?_, ?_⟩
  · intro hacc
    cases hpr : unpackHH (raw.take 516) with
    | none =>
      rw [receive_step_datagram_short sa addr s raw hpr] at hacc
      exact absurd hacc Bool.false_ne_true
    | some pr =>
      obtain ⟨op, blk⟩ := pr
      rw [receive_step_datagram_parse sa addr s raw op blk hpr] at hacc ⊢
      by_cases hop : op ≠ 3
      · rw [if_pos hop] at hacc
        exact absurd hacc Bool.false_ne_true
      · rw [if_neg hop] at hacc ⊢
        by_cases hblk : blk ≠ s.block_num
        · rw [if_pos hblk] at hacc
          exact absurd hacc Bool.false_ne_true
        · rw [if_neg hblk] at hacc ⊢
          split <;> rfl
  · intro hbig hbytes
    cases hpr : unpackHH (raw.take 516) with
    | none =>
      rw [receive_step_datagram_short sa addr s raw hpr]
      rfl
    | some pr =>
      obtain ⟨op, blk⟩ := pr
      have hblk : blk ≤ 65535 :=
        (unpackHH_bounds (raw.take 516) op blk
          (fun b hb => hbytes b (List.take_subset 516 raw hb)) hpr).2
      rw [receive_step_datagram_parse sa addr s raw op blk hpr]
      by_cases hop : op ≠ 3
      · rw [if_pos hop]
        rfl
      · rw [if_neg hop, if_pos (show blk ≠ s.block_num from by omega)]
        rfl

/-- Witness for the amended C4 at concrete inputs: accepting block 1 moves
the expected block from 1 to 2, and with expected block 65536 the wire
segment for block 0 (the wrapped value) is rejected. -/
theorem C4_amended_no_wrap_witness :
    stepBlockNum (receive_step epLoop initState (.datagram [0, 3, 0, 1, 65] epOther))
        = initState.block_num + 1
    ∧ stepAccepts (receive_step epLoop { initState with block_num := 65536 }
        (.datagram [0, 3, 0, 0, 65] epOther)) = false :=
  ⟨(C4_amended_no_wrap epLoop epOther initState [0, 3, 0, 1, 65]).2.1 (by decide),
   (C4_amended_no_wrap epLoop epOther { initState with block_num := 65536 }
      [0, 3, 0, 0, 65]).2.2 (by decide) (by decide)⟩

/-- Claim C1: against a well-behaved server sending full 512-byte payloads
for every block but a short last one, with opcode 3 and consecutive blocks
from 1, the loop finishes, the bytes written are the concatenation of the
payloads, and the acknowledgments are exactly those of blocks 1 up to N + 1,
in strictly increasing block order, all sent to the arrival address. -/
theorem C1_wellbehaved_transfer (sa addr : Endpoint) (full : List Bytes) (last : Bytes)
    (hfull : ∀ p ∈ full, p.length = 512) (hlast : last.length < 512)
    (hN : full.length + 1 < 65536) :
    ∃ st : TransferState,
      receive_data sa (server_events addr 1 (full ++ [last])) = .terminated .finished st
      ∧ st.fileData = (full ++ [last]).flatten
      ∧ st.sends = ack_list addr 1 (full.length + 1)
      ∧ st.sends.map (fun pr => ackBlock pr.1)
          = (List.range (full.length + 1)).map (fun i => 1 + i)
      ∧ List.Pairwise (· < ·) (st.sends.map (fun pr => ackBlock pr.1)) := by
  have hb : initState.block_num + full.length < 65536 := by
    show 1 + full.length < 65536
    omega
  have h := receive_run_wellbehaved sa addr full last initState hfull hlast hb
  have hsends : initState.sends ++ ack_list addr initState.block_num (full.length + 1)
      = ack_list addr 1 (full.length + 1) := by
    show [] ++ ack_list addr 1 (full.length + 1) = ack_list addr 1 (full.length + 1)
    simp
  have hfile : initState.fileData ++ (full ++ [last]).flatten = (full ++ [last]).flatten := by
    show [] ++ (full ++ [last]).flatten = (full ++ [last]).flatten
    simp
  refine ⟨_, h, hfile, hsends, ?_, ?_⟩
  · show (initState.sends ++ ack_list addr initState.block_num (full.length + 1)).map
        (fun pr => ackBlock pr.1) = (List.range (full.length + 1)).map (fun i => 1 + i)
    rw [hsends]
    exact ack_list_map_blocks addr 1 (full.length + 1) (by omega)
  · show List.Pairwise (· < ·)
      ((initState.sends ++ ack_list addr initState.block_num (full.length + 1)).map
        (fun pr => ackBlock pr.1))
    rw [hsends, ack_list_map_blocks addr 1 (full.length + 1) (by omega)]
    exact pairwise_lt_map_add 1 (full.length + 1)

/-- Witness for C1 at a concrete input: zero full blocks and a short final
payload of two bytes. -/
theorem C1_wellbehaved_transfer_witness :
    ∃ st : TransferState,
      receive_data epLoop (server_events epOther 1 [[65, 66]]) = .terminated .finished st
      ∧ st.fileData = ([[65, 66]] : List Bytes).flatten
      ∧ st.sends = ack_list epOther 1 1
      ∧ st.sends.map (fun pr => ackBlock pr.1) = (List.range 1).map (fun i => 1 + i)
      ∧ List.Pairwise (· < ·) (st.sends.map (fun pr => ackBlock pr.1)) :=
  C1_wellbehaved_transfer epLoop epOther [] [65, 66] (by simp) (by decide) (by decide)

set_option maxRecDepth 80000

/-- Counterexample to claim C5 as stated: after accepting a full first block
arriving from epOther, the timeout retransmission of the last acknowledgment
is sent to the originally targeted endpoint epLoop, not to epOther, the
endpoint the most recent data segment actually arrived from. -/
theorem C5_counterexample :
    sendsOf (receive_data epLoop
        [.datagram (data_packet 1 (List.replicate 512 65)) epOther, .timeout])
      = [(packHH 4 1, epOther), (packHH 4 1, epLoop)]
    ∧ epOther ≠ epLoop := by
  constructor
  · decide
  · decide

/-- Claim C5 amended: the acknowledgment of a freshly accepted segment is
sent to the address the segment arrived from, but the retransmission after a
timeout is sent to the originally targeted server_address; only the packet,
never the peer address, is retained in the transfer state. -/
theorem C5_amended_ack_addressing (sa addr : Endpoint) (s : TransferState) (p a : Bytes)
    (hb : s.block_num < 65536) (hp : p.length ≤ 512)
    (ha : s.ack_packet = some a) (hr : s.retries + 1 ≤ max_retries) :
    (stepState (receive_step sa s (.datagram (data_packet s.block_num p) addr))).sends
        = s.sends ++ [(packHH 4 s.block_num, addr)]
    ∧ receive_step sa s .timeout
        = .next { s with retries := s.retries + 1, sends := s.sends ++ [(a, sa)] } := by
  constructor
  · rw [receive_step_data_accept sa addr s p hb hp]
    rcases Nat.lt_or_ge p.length 512 with h | h
    · rw [if_pos h]
      rfl
    · rw [if_neg (by omega)]
      rfl
  · exact receive_step_timeout_ack sa s a hr ha

/-- Witness for the amended C5 at concrete inputs: a fresh acknowledgment
goes to the arrival address epOther, the timeout retransmission to the
targeted address epLoop. -/
theorem C5_amended_ack_addressing_witness :
    (stepState (receive_step epLoop
        { block_num := 1, retries := 0, ack_packet := some (packHH 4 1), fileData := [65],
          sends := [(packHH 4 1, epOther)] }
        (.datagram (data_packet 1 [66]) epOther))).sends
      = [(packHH 4 1, epOther), (packHH 4 1, epOther)]
    ∧ receive_step epLoop
        { block_num := 1, retries := 0, ack_packet := some (packHH 4 1), fileData := [65],
          sends := [(packHH 4 1, epOther)] } NetEvent.timeout
      = .next { block_num := 1, retries := 1, ack_packet := some (packHH 4 1),
                fileData := [65],
                sends := [(packHH 4 1, epOther), (packHH 4 1, epLoop)] } := by
  have h := C5_amended_ack_addressing epLoop epOther
    { block_num := 1, retries := 0, ack_packet := some (packHH 4 1), fileData := [65],
      sends := [(packHH 4 1, epOther)] } [66] (packHH 4 1)
    (by decide) (by decide) rfl (by decide)
  exact ⟨h.1, h.2⟩

/-- Claim C3: with the requested file present and readable, a server that
stays silent for four consecutive timeout periods makes the client send the
read request once and nothing else (no probe datagrams, as no acknowledgment
exists yet), the loop terminating with the maximum-retries exit after the
retry counter reaches 4 and exceeds the maximum of 3; after only three
timeouts the loop is still waiting; the configured socket timeout is 2
seconds. -/
theorem C3_timeout_retries (fs0 : FileSys) (readable : String → Bool) (port : Nat)
    (file : String) (rest : List NetEvent)
    (hex : (fs0 file).isSome = true) (hr : readable file = true) :
    (main_run fs0 readable "rx" port file
        (.timeout :: .timeout :: .timeout :: .timeout :: rest)).sends
      = [(rrq_packet file, { host := "127.0.0.1", port := port })]
    ∧ (main_run fs0 readable "rx" port file
        (.timeout :: .timeout :: .timeout :: .timeout :: rest)).run
      = some (.terminated .maxRetriesExceeded { initState with retries := 4 })
    ∧ receive_run { host := "127.0.0.1", port := port }
        (List.replicate 3 NetEvent.timeout) initState
      = .awaiting { initState with retries := 3 }
    ∧ socket_timeout_seconds = 2 := by
  obtain ⟨c, hc⟩ := Option.isSome_iff_exists.mp hex
  have hsr : send_rrq fs0 readable { host := "127.0.0.1", port := port } file
      = { outcome := .sent,
          sends := [(rrq_packet file, { host := "127.0.0.1", port := port })] } := by
    simp [send_rrq, hc, hr]
  have hrun : receive_data { host := "127.0.0.1", port := port }
      (.timeout :: .timeout :: .timeout :: .timeout :: rest)
      = .terminated .maxRetriesExceeded { initState with retries := 4 } := rfl
  refine ⟨?_, ?_, rfl, rfl⟩
  · show (send_rrq fs0 readable { host := "127.0.0.1", port := port } file).sends
        ++ (stateOf (receive_data { host := "127.0.0.1", port := port }
            (.timeout :: .timeout :: .timeout :: .timeout :: rest))).sends
      = [(rrq_packet file, { host := "127.0.0.1", port := port })]
    rw [hsr, hrun]
    rfl
  · show some (receive_data { host := "127.0.0.1", port := port }
        (.timeout :: .timeout :: .timeout :: .timeout :: rest))
      = some (.terminated .maxRetriesExceeded { initState with retries := 4 })
    rw [hrun]

/-- Witness for C3 at a concrete input: data.txt exists and is readable, the
server stays silent for four timeout periods. -/
theorem C3_timeout_retries_witness :
    (main_run fsSample readableAll "rx" 6969 "data.txt"
        [.timeout, .timeout, .timeout, .timeout]).sends
      = [(rrq_packet "data.txt", { host := "127.0.0.1", port := 6969 })]
    ∧ (main_run fsSample readableAll "rx" 6969 "data.txt"
        [.timeout, .timeout, .timeout, .timeout]).run
      = some (.terminated .maxRetriesExceeded { initState with retries := 4 }) := by
  have h := C3_timeout_retries fsSample readableAll 6969 "data.txt" [] (by decide) rfl
  exact ⟨h.1, h.2.1⟩

/-- Claim C7: a failed local precondition check (missing or unreadable file)
makes send_rrq return after the diagnostic with no datagram sent, and a full
client run on a missing file with a silent network performs zero socket
sends however long it waits. -/
theorem C7_local_precondition_no_send (fs0 : FileSys) (readable : String → Bool)
    (port : Nat) (file : String) :
    (fs0 file = none →
      send_rrq fs0 readable { host := "127.0.0.1", port := port } file
          = { outcome := .fileNotFound, sends := [] }
      ∧ ∀ n : Nat,
          (main_run fs0 readable "rx" port file (List.replicate n .timeout)).sends = [])
    ∧ (∀ c : Bytes, fs0 file = some c → readable file = false →
        send_rrq fs0 readable { host := "127.0.0.1", port := port } file
          = { outcome := .permissionDenied, sends := [] }) := by
  constructor
  · intro h
    have hsr : send_rrq fs0 readable { host := "127.0.0.1", port := port } file
        = { outcome := .fileNotFound, sends := [] } := by
      simp [send_rrq, h]
    refine ⟨hsr, fun n => ?_⟩
    have hsil := receive_run_silent { host := "127.0.0.1", port := port } n initState rfl
    show (send_rrq fs0 readable { host := "127.0.0.1", port := port } file).sends
        ++ (stateOf (receive_run { host := "127.0.0.1", port := port }
            (List.replicate n .timeout) initState)).sends
      = []
    rw [hsr, hsil.1]
    rfl
  · intro c hc hr
    simp [send_rrq, hc, hr]

/-- Witness for C7 at concrete inputs: a missing data.txt fails the
existence check with zero sends over four silent timeout periods, and an
unreadable data.txt fails the permission check with zero sends. -/
theorem C7_local_precondition_no_send_witness :
    send_rrq fsNone readableAll { host := "127.0.0.1", port := 6969 } "data.txt"
        = { outcome := .fileNotFound, sends := [] }
    ∧ (main_run fsNone readableAll "rx" 6969 "data.txt"
        (List.replicate 4 .timeout)).sends = []
    ∧ send_rrq fsSample (fun _ => false) { host := "127.0.0.1", port := 6969 } "data.txt"
        = { outcome := .permissionDenied, sends := [] } := by
  have h1 := (C7_local_precondition_no_send fsNone readableAll 6969 "data.txt").1 rfl
  have h2 := (C7_local_precondition_no_send fsSample (fun _ => false) 6969 "data.txt").2
    [1, 2, 3] (by decide) rfl
  exact ⟨h1.1, h1.2 4, h2⟩

/-- Counterexample to claim C8 as stated: receive_data returns None on every
path, so no reading of its return value can report the bytes written of a
finished run and the failure kind of an error run — two runs with different
contract outcomes share the same returned value. -/
theorem C8_counterexample :
    ¬ ∃ decode : Unit → Option (Nat ⊕ TransferError),
        ∀ (sa : Endpoint) (evs : List NetEvent) (r : Nat ⊕ TransferError),
          run_transfer_result_spec sa evs = some r →
          decode (receive_data_retval sa evs) = some r := by
  rintro ⟨decode, hdec⟩
  have h1 := hdec epLoop [.datagram [0, 3, 0, 1, 65] epOther] (.inl 1) (by decide)
  have h2 := hdec epLoop [.datagram [0, 5, 0, 0] epOther] (.inr .unexpectedOpcode) (by decide)
  have e1 : receive_data_retval epLoop [.datagram [0, 3, 0, 1, 65] epOther] = () := rfl
  have e2 : receive_data_retval epLoop [.datagram [0, 5, 0, 0] epOther] = () := rfl
  rw [e1] at h1
  rw [e2] at h2
  exact absurd (h1.symm.trans h2) (by decide)

/-- Claim C8 amended: receive_data returns None to its caller in every case;
the outcome the spec contract would return (bytes written or failure kind)
is reflected only in side effects, and differs between runs whose returned
values coincide. -/
theorem C8_amended_returns_none :
    (∀ (sa : Endpoint) (evs : List NetEvent), receive_data_retval sa evs = ())
    ∧ run_transfer_result_spec epLoop [.datagram [0, 3, 0, 1, 65] epOther] = some (.inl 1)
    ∧ run_transfer_result_spec epLoop [.datagram [0, 5, 0, 0] epOther]
        = some (.inr .unexpectedOpcode) :=
  ⟨fun _ _ => rfl, by decide, by decide⟩

/-- Claim C10: main passes the same args.file to the precondition check of
send_rrq and to the write-mode open of receive_data, so after any run the
checked file holds exactly the bytes the loop wrote — in particular, with a
silent server, the previously existing content is replaced by the empty
file before any data segment has arrived. -/
theorem C10_output_truncates_checked_file (fs0 : FileSys) (readable : String → Bool)
    (port : Nat) (file : String) (prior : Bytes) (events : List NetEvent)
    (h : fs0 file = some prior) (hr : readable file = true) :
    send_rrq fs0 readable { host := "127.0.0.1", port := port } file
      = { outcome := .sent,
          sends := [(rrq_packet file, { host := "127.0.0.1", port := port })] }
    ∧ (main_run fs0 readable "rx" port file events).fs file
        = some (stateOf (receive_data { host := "127.0.0.1", port := port } events)).fileData
    ∧ (main_run fs0 readable "rx" port file (List.replicate 4 .timeout)).fs file
        = some [] := by
  refine ⟨by simp [send_rrq, h, hr], ?_, ?_⟩
  · show (if file = file then
        some (stateOf (receive_data { host := "127.0.0.1", port := port } events)).fileData
      else fs0 file)
      = some (stateOf (receive_data { host := "127.0.0.1", port := port } events)).fileData
    rw [if_pos rfl]
  · show (if file = file then
        some (stateOf (receive_data { host := "127.0.0.1", port := port }
          (List.replicate 4 .timeout))).fileData
      else fs0 file)
      = some []
    rw [if_pos rfl]
    rfl

/-- Witness for C10 at a concrete input: data.txt exists with three bytes,
is readable, and a silent server leaves it truncated to empty. -/
theorem C10_output_truncates_checked_file_witness :
    send_rrq fsSample readableAll { host := "127.0.0.1", port := 6969 } "data.txt"
      = { outcome := .sent,
          sends := [(rrq_packet "data.txt", { host := "127.0.0.1", port := 6969 })] }
    ∧ (main_run fsSample readableAll "rx" 6969 "data.txt"
        (List.replicate 4 .timeout)).fs "data.txt" = some [] := by
  have h := C10_output_truncates_checked_file fsSample readableAll 6969 "data.txt" [1, 2, 3]
    (List.replicate 4 .timeout) (by decide) rfl
  exact ⟨h.1, h.2.2⟩

end Tftp
